import Mathlib

/-
Shallow embedding of the connectivity-fallback layer in
source/common/http/conn_pool_grid.h and source/common/http/conn_pool_grid.cc.

Data correspondence:
  * `GridState` models the mutable fields of `ConnectivityGrid` that the
    verified operations read or write: `pools_` (only its length matters to the
    control flow, a pool slot is identified by its rank), `drained_callbacks_`
    (caller drain callbacks, identified by opaque numeric ids, in registration
    order), `drains_needed_` (a `uint32_t`), and `destroying_`.
  * `WrapperState` models the mutable fields of
    `ConnectivityGrid::WrapperCallbacks`: `pool_it_` (as the rank of the
    current pool) and membership in the grid-owned list `wrapped_callbacks_`.
    The borrowed `decoder_` and `inner_callbacks_` references are constant for
    the life of a wrapper; calls made on `inner_callbacks_` are recorded as
    `CallerEvent`s, and calls made on a pool `Cancellable` handle are recorded
    as (rank, policy) pairs.
  * Opaque C++ values that are only forwarded, never inspected
    (`PoolFailureReason`, host descriptions, encoders, `StreamInfo`) are
    embedded as `Nat`; the transport failure detail string as `String`;
    `absl::optional<Http::Protocol>` as `Option Nat`.
-/

/-- Mutable state of a `ConnectivityGrid` (conn_pool_grid.h, member fields
`pools_`, `drained_callbacks_`, `drains_needed_`, `destroying_`). -/
structure GridState where
  npools : Nat
  drainedCallbacks : List Nat
  drainsNeeded : Nat
  destroying : Bool
deriving Repr, DecidableEq

/-- State of a freshly constructed grid (`ConnectivityGrid::ConnectivityGrid`):
no pools, no drain callbacks, `drains_needed_ = 0`, `destroying_ = false`. -/
def initGrid : GridState :=
  { npools := 0, drainedCallbacks := [], drainsNeeded := 0, destroying := false }

/-- `ConnectivityGrid::createNextPool` (conn_pool_grid.cc lines 93-112), release
semantics (the `ASSERT(drained_callbacks_.empty())` is a debug-build no-op).
Refuses (returns `none`) if two pools exist or any drain callback has been
registered; otherwise appends one pool: rank 0 (the HTTP/3 pool) when the
sequence is empty, rank 1 (the mixed pool) otherwise, returning an iterator to
the new pool (`pools_.begin()` resp. `std::next(pools_.begin())`). -/
def createNextPool (g : GridState) : Option Nat × GridState :=
  if g.npools = 2 ∨ g.drainedCallbacks ≠ [] then (none, g)
  else if g.npools = 0 then (some 0, { g with npools := 1 })
  else (some 1, { g with npools := g.npools + 1 })

/-- `ConnectivityGrid::nextPool` (conn_pool_grid.cc lines 170-176): increments
the iterator; if it is not `pools_.end()` (that is, `r + 1 < npools`) returns
it, otherwise delegates to `createNextPool`. -/
def nextPool (g : GridState) (r : Nat) : Option Nat × GridState :=
  if r + 1 < g.npools then (some (r + 1), g)
  else createNextPool g

/-- `ConnectivityGrid::addDrainedCallback` (conn_pool_grid.cc lines 139-156):
appends `cb` to `drained_callbacks_`; if that list did not just reach size 1,
returns. On the first registration only, sets `drains_needed_` to the current
pool count and subscribes a grid-owned notification to every existing pool
(the returned list is the ranks subscribed, in pool order). -/
def addDrainedCallback (g : GridState) (cb : Nat) : GridState × List Nat :=
  let cbs := g.drainedCallbacks ++ [cb]
  if cbs.length ≠ 1 then ({ g with drainedCallbacks := cbs }, [])
  else ({ g with drainedCallbacks := cbs, drainsNeeded := g.npools }, List.range g.npools)

/-- Decrement of the `uint32_t` counter `drains_needed_`: `--drains_needed_`
wraps to 4294967295 when the counter is already zero. On the representable
range of a `uint32_t` this is exactly (n + 2^32 - 1) mod 2^32; see
`dec32_eq_mod` below. -/
def dec32 (n : Nat) : Nat := if n = 0 then 4294967295 else n - 1

/-- `ConnectivityGrid::onDrainReceived` (conn_pool_grid.cc lines 178-194),
release semantics (the `ASSERT(drains_needed_ != 0)` is a debug-build no-op).
Discards the notification when `destroying_`; otherwise decrements
`drains_needed_` and, exactly when the decremented value is zero, fires every
callback in `drained_callbacks_` in registration order (the returned list is
the callbacks invoked by this call). -/
def onDrainReceived (g : GridState) : GridState × List Nat :=
  if g.destroying then (g, [])
  else
    let d := dec32 g.drainsNeeded
    if d ≠ 0 then ({ g with drainsNeeded := d }, [])
    else ({ g with drainsNeeded := d }, g.drainedCallbacks)

/-- A call delivered to the original caller's `ConnectionPool::Callbacks`
(`inner_callbacks_`): either `onPoolFailure(reason, transport_failure_reason,
host)` or `onPoolReady(encoder, host, info, protocol)`. -/
inductive CallerEvent where
  | poolFailure (reason : Nat) (transportFailureReason : String) (host : Nat)
  | poolReady (encoder : Nat) (host : Nat) (info : Nat) (protocol : Option Nat)
deriving Repr, DecidableEq

/-- Mutable state of a `ConnectivityGrid::WrapperCallbacks`: the rank of the
current pool (`pool_it_`) and whether the wrapper is currently a member of the
grid-owned list `wrapped_callbacks_`. -/
structure WrapperState where
  pool_it : Nat
  inList : Bool
deriving Repr, DecidableEq

/-- Result of one `WrapperCallbacks::onPoolFailure` call: the updated grid and
wrapper, the calls forwarded to the caller, and whether a retry on a further
pool was started. -/
structure FailureStep where
  grid : GridState
  wrapper : WrapperState
  events : List CallerEvent
  retried : Bool
deriving Repr, DecidableEq

/-- `ConnectivityGrid::WrapperCallbacks::onPoolFailure` (conn_pool_grid.cc
lines 30-46): asks the grid for the next pool; if one is available, updates
`pool_it_` and issues a new stream request there (acquiring a fresh
`cancellable_`), forwarding nothing to the caller. Otherwise forwards the
original reason, transport failure detail and host to `inner_callbacks_`.
Note: as written, the exhaustion branch does not call `deleteThis`, so the
wrapper stays in `wrapped_callbacks_`. -/
def onPoolFailure (g : GridState) (w : WrapperState) (reason : Nat)
    (transportFailureReason : String) (host : Nat) : FailureStep :=
  match nextPool g w.pool_it with
  | (some r2, g2) =>
    { grid := g2, wrapper := { w with pool_it := r2 }, events := [], retried := true }
  | (none, g2) =>
    { grid := g2, wrapper := w,
      events := [CallerEvent.poolFailure reason transportFailureReason host], retried := false }

/-- `ConnectivityGrid::WrapperCallbacks::onPoolReady` (conn_pool_grid.cc lines
53-62): calls `deleteThis` (removing the wrapper from `wrapped_callbacks_`)
and then forwards encoder, host, stream info and protocol to
`inner_callbacks_.onPoolReady`. -/
def onPoolReady (w : WrapperState) (encoder host info : Nat) (protocol : Option Nat) :
    WrapperState × List CallerEvent :=
  ({ w with inList := false }, [CallerEvent.poolReady encoder host info protocol])

/-- `ConnectivityGrid::WrapperCallbacks::cancel` (conn_pool_grid.cc lines
64-69): forwards the cancel policy to `cancellable_` (the handle returned by
the currently targeted pool, identified here by its rank) and then calls
`deleteThis`. No caller callback is made. -/
def cancelWrapper (w : WrapperState) (policy : Nat) : WrapperState × List (Nat × Nat) :=
  ({ w with inList := false }, [(w.pool_it, policy)])

/-- Resolution of the wrapper's outstanding pool attempt: the currently
targeted pool reports failure or readiness, or the caller cancels through the
handle returned by `ConnectivityGrid::newStream`. Per the pool capability
contract each attempt receives exactly one such resolution. -/
inductive PoolAct where
  | poolFailure (reason : Nat) (transportFailureReason : String) (host : Nat)
  | poolReady (encoder : Nat) (host : Nat) (info : Nat) (protocol : Option Nat)
  | cancel (policy : Nat)
deriving Repr, DecidableEq

/-- Whether an action is a pool failure notification. -/
def PoolAct.isFailure : PoolAct → Bool
  | PoolAct.poolFailure _ _ _ => true
  | _ => false

/-- Observable outcome of running one wrapper against a sequence of attempt
resolutions: calls forwarded to the caller, cancels forwarded to pool handles
as (rank, policy), final membership in `wrapped_callbacks_`, the current rank,
how many resolutions were consumed, whether the request reached a terminal
event, and the final grid state. -/
structure RunOut where
  caller : List CallerEvent
  cancels : List (Nat × Nat)
  inList : Bool
  rank : Nat
  used : Nat
  done : Bool
  grid : GridState
deriving Repr, DecidableEq

/-- Executes one wrapper (already inserted in `wrapped_callbacks_`, currently
attempting the pool at rank `w.pool_it`) against a list of successive attempt
resolutions, applying `onPoolFailure` / `onPoolReady` / `cancel` exactly as the
source does. After a terminal event the attempt has no live handle, so
remaining resolutions are not consumed. -/
def runActs (g : GridState) (w : WrapperState) : List PoolAct → RunOut
  | [] =>
    { caller := [], cancels := [], inList := w.inList, rank := w.pool_it,
      used := 0, done := false, grid := g }
  | PoolAct.poolReady e h i p :: _ =>
    let q := onPoolReady w e h i p
    { caller := q.2, cancels := [], inList := q.1.inList, rank := q.1.pool_it,
      used := 1, done := true, grid := g }
  | PoolAct.cancel pol :: _ =>
    let q := cancelWrapper w pol
    { caller := [], cancels := q.2, inList := q.1.inList, rank := q.1.pool_it,
      used := 1, done := true, grid := g }
  | PoolAct.poolFailure re d h :: rest =>
    let q := onPoolFailure g w re d h
    if q.retried then
      let out := runActs q.grid q.wrapper rest
      { out with used := out.used + 1 }
    else
      { caller := q.events, cancels := [], inList := q.wrapper.inList,
        rank := q.wrapper.pool_it, used := 1, done := true, grid := q.grid }

/-- The caller events produced when the resolution at position `u - 1` of
`acts` is a pool failure: the single `onPoolFailure` forwarding of exactly that
failure's reason, detail and host. -/
def lastFailureEvents (acts : List PoolAct) (u : Nat) : List CallerEvent :=
  match acts.get? (u - 1) with
  | some (PoolAct.poolFailure re d h) => [CallerEvent.poolFailure re d h]
  | _ => []

/-- How a pool's `newStream` resolves an attempt from the point of view of the
initiating call: asynchronously (callback later, from the event loop), or
re-entrantly invoking `onPoolReady` resp. `onPoolFailure` before returning. -/
inductive SyncBehavior where
  | async
  | syncReady (encoder host info : Nat) (protocol : Option Nat)
  | syncFailure (reason : Nat) (transportFailureReason : String) (host : Nat)
deriving Repr, DecidableEq

/-- Modelled from the spec: the grid owns controllers in an intrusive linked
list (`LinkedObject` / `LinkedList`, declared outside this snapshot's sources);
its removal operation (`removeFromList`, used by `deleteThis`) is only valid
for an object currently inserted in the list, and takes its error branch when
invoked on an object that has not been inserted. This predicate is true
exactly when that error branch is reached. -/
def linkedRemoveError (inserted : Bool) : Bool := !inserted

/-- Outcome of `ConnectivityGrid::newStream` under given pool resolution
timings: caller events delivered before `newStream` returns, whether the
list-removal error branch was reached, and whether an attempt is still
outstanding when `newStream` returns. -/
structure NewStreamOut where
  caller : List CallerEvent
  removeNotInserted : Bool
  outstanding : Bool
  grid : GridState
deriving Repr, DecidableEq

/-- The attempt loop run from inside the `WrapperCallbacks` constructor
(conn_pool_grid.cc lines 21-28): `cancellable_ = pool().newStream(decoder_,
*this)`, where the pool may re-entrantly resolve the attempt. `inserted` is
the wrapper's membership in `wrapped_callbacks_` at this moment. A re-entrant
`onPoolReady` executes `deleteThis` (conn_pool_grid.cc lines 53-62), whose
list removal errors when the wrapper is not inserted; a re-entrant final
`onPoolFailure` forwards the failure without `deleteThis`; a re-entrant
non-final `onPoolFailure` retries on the next pool. -/
def ctorAttempt (g : GridState) (r : Nat) (inserted : Bool) :
    List SyncBehavior → NewStreamOut
  | [] => { caller := [], removeNotInserted := false, outstanding := true, grid := g }
  | SyncBehavior.async :: _ =>
    { caller := [], removeNotInserted := false, outstanding := true, grid := g }
  | SyncBehavior.syncReady e h i p :: _ =>
    { caller := [CallerEvent.poolReady e h i p],
      removeNotInserted := linkedRemoveError inserted, outstanding := false, grid := g }
  | SyncBehavior.syncFailure re d h :: rest =>
    match nextPool g r with
    | (some r2, g2) => ctorAttempt g2 r2 inserted rest
    | (none, g2) =>
      { caller := [CallerEvent.poolFailure re d h], removeNotInserted := false,
        outstanding := false, grid := g2 }

/-- `ConnectivityGrid::newStream` (conn_pool_grid.cc lines 124-137): ensures a
first pool exists, then constructs a `WrapperCallbacks` bound to
`pools_.begin()` (rank 0) — whose constructor starts the first attempt — and
only afterwards moves the wrapper into `wrapped_callbacks_`. The attempt is
therefore started with the wrapper not yet inserted. -/
def newStream (g : GridState) (behaviors : List SyncBehavior) : NewStreamOut :=
  let g1 := if g.npools = 0 then (createNextPool g).2 else g
  ctorAttempt g1 0 false behaviors

/-- Operations that mutate the grid's drain-coordination and pool-sequence
state: a (possibly speculative) `createNextPool` call, an
`addDrainedCallback(cb)` call, one pool drain notification reaching
`onDrainReceived`, and the destructor's flag setting plus pool release. -/
inductive GOp where
  | createNext
  | addCb (c : Nat)
  | notify
  | destroy
deriving Repr, DecidableEq

/-- Whether an operation is a drain notification. -/
def GOp.isNotify : GOp → Bool
  | GOp.notify => true
  | _ => false

/-- Whether an operation is an `addDrainedCallback` call or a drain
notification (the operations of the drain-coordination protocol proper). -/
def drainOnly : GOp → Bool
  | GOp.addCb _ => true
  | GOp.notify => true
  | _ => false

/-- Applies one operation to the grid, returning the new state and the drain
callback groups fired by this operation (each group lists the callbacks
invoked, in invocation order). -/
def applyOp (g : GridState) : GOp → GridState × List (List Nat)
  | GOp.createNext => ((createNextPool g).2, [])
  | GOp.addCb c => ((addDrainedCallback g c).1, [])
  | GOp.notify =>
    let p := onDrainReceived g
    (p.1, if p.2 = [] then [] else [p.2])
  | GOp.destroy => ({ g with destroying := true, npools := 0 }, [])

/-- Applies a sequence of operations, accumulating the fired callback groups
in firing order. -/
def applyOps (g : GridState) : List GOp → GridState × List (List Nat)
  | [] => (g, [])
  | op :: rest =>
    let p := applyOp g op
    let q := applyOps p.1 rest
    (q.1, p.2 ++ q.2)

/-- Number of drain notifications in an operation sequence. -/
def countNotify (ops : List GOp) : Nat := (ops.filter GOp.isNotify).length

/-- The drain callbacks registered strictly before the `m`-th drain
notification of `ops`, in registration order. -/
def regBefore : Nat → List GOp → List Nat
  | _, [] => []
  | m, GOp.addCb c :: rest => c :: regBefore m rest
  | m, GOp.notify :: rest => if m ≤ 1 then [] else regBefore (m - 1) rest
  | m, GOp.createNext :: rest => regBefore m rest
  | m, GOp.destroy :: rest => regBefore m rest

/-- True when no drain notification occurs before the first
`addDrainedCallback` call (notifications only exist once a registration has
subscribed the grid to its pools). -/
def noEarlyNotify : List GOp → Bool
  | [] => true
  | GOp.addCb _ :: _ => true
  | GOp.notify :: _ => false
  | GOp.createNext :: rest => noEarlyNotify rest
  | GOp.destroy :: rest => noEarlyNotify rest

/-- `k` successive drain notifications delivered to `onDrainReceived`,
accumulating any fired callback groups. -/
def iterDrain (g : GridState) : Nat → GridState × List (List Nat)
  | 0 => (g, [])
  | k + 1 =>
    let p := onDrainReceived g
    let q := iterDrain p.1 k
    (q.1, (if p.2 = [] then [] else [p.2]) ++ q.2)

/-- `ConnectivityGrid::~ConnectivityGrid` (conn_pool_grid.cc lines 87-91):
sets `destroying_` and then clears `pools_`; tearing the pools down may
deliver `k` drain notifications re-entrantly, which reach `onDrainReceived`
with `destroying_` already set. -/
def destroyGrid (g : GridState) (k : Nat) : GridState × List (List Nat) :=
  let g1 := { g with destroying := true }
  let p := iterDrain g1 k
  ({ p.1 with npools := 0 }, p.2)

/-! Basic lemmas about the embedded operations. -/

theorem dec32_eq_mod (n : Nat) (h : n < 4294967296) :
    dec32 n = (n + 4294967295) % 4294967296 := by
  unfold dec32
  split <;> omega

theorem dec32_of_pos {n : Nat} (h0 : 0 < n) : dec32 n = n - 1 := by
  unfold dec32
  split <;> omega

theorem addDrainedCallback_npools (g : GridState) (cb : Nat) :
    (addDrainedCallback g cb).1.npools = g.npools := by
  unfold addDrainedCallback
  dsimp only
  split <;> rfl

theorem onDrainReceived_npools (g : GridState) :
    (onDrainReceived g).1.npools = g.npools := by
  unfold onDrainReceived
  dsimp only
  split
  · rfl
  · split <;> rfl

theorem createNextPool_npools_le (g : GridState) (h : g.npools ≤ 2) :
    (createNextPool g).2.npools ≤ 2 := by
  unfold createNextPool
  split
  · exact h
  · split
    · simp
    · simp
      omega

theorem applyOp_npools_le (g : GridState) (op : GOp) (h : g.npools ≤ 2) :
    (applyOp g op).1.npools ≤ 2 := by
  cases op with
  | createNext => exact createNextPool_npools_le g h
  | addCb c => simpa [applyOp, addDrainedCallback_npools] using h
  | notify => simpa [applyOp, onDrainReceived_npools] using h
  | destroy => simp [applyOp]

theorem applyOps_npools_le (ops : List GOp) :
    ∀ g : GridState, g.npools ≤ 2 → (applyOps g ops).1.npools ≤ 2 := by
  induction ops with
  | nil => intro g h; exact h
  | cons op rest ih =>
    intro g h
    simpa [applyOps] using ih _ (applyOp_npools_le g op h)

theorem countNotify_nil : countNotify [] = 0 := rfl

theorem countNotify_cons (op : GOp) (rest : List GOp) :
    countNotify (op :: rest) = (if GOp.isNotify op = true then 1 else 0) + countNotify rest := by
  unfold countNotify
  rw [List.filter_cons]
  split <;> simp [Nat.add_comm]

theorem applyOps_no_notify (ops : List GOp) :
    ∀ g : GridState, countNotify ops = 0 → (applyOps g ops).2 = [] := by
  induction ops with
  | nil => intro g _; rfl
  | cons op rest ih =>
    intro g h
    rw [countNotify_cons] at h
    cases op with
    | notify => simp [GOp.isNotify] at h
    | createNext =>
      simp only [GOp.isNotify, if_neg] at h
      simpa [applyOps, applyOp] using ih _ (by omega)
    | addCb c =>
      simp only [GOp.isNotify, if_neg] at h
      simpa [applyOps, applyOp] using ih _ (by omega)
    | destroy =>
      simp only [GOp.isNotify, if_neg] at h
      simpa [applyOps, applyOp] using ih _ (by omega)

theorem onDrainReceived_destroying (g : GridState) (h : g.destroying = true) :
    onDrainReceived g = (g, []) := by
  unfold onDrainReceived
  simp [h]

theorem onDrainReceived_pending (g : GridState) (hde : g.destroying = false)
    (h2 : 2 ≤ g.drainsNeeded) :
    onDrainReceived g = ({ g with drainsNeeded := g.drainsNeeded - 1 }, []) := by
  unfold onDrainReceived
  have hd : dec32 g.drainsNeeded = g.drainsNeeded - 1 := dec32_of_pos (by omega)
  rw [hde, hd]
  simp only [Bool.false_eq_true, if_false]
  rw [if_pos (by omega : g.drainsNeeded - 1 ≠ 0)]

theorem onDrainReceived_fire (g : GridState) (hde : g.destroying = false)
    (h1 : g.drainsNeeded = 1) :
    onDrainReceived g = ({ g with drainsNeeded := 0 }, g.drainedCallbacks) := by
  unfold onDrainReceived
  have hd : dec32 g.drainsNeeded = 0 := by rw [h1]; rfl
  rw [hde, hd]
  simp

theorem addDrainedCallback_subsequent (g : GridState) (cb : Nat)
    (h : g.drainedCallbacks ≠ []) :
    addDrainedCallback g cb = ({ g with drainedCallbacks := g.drainedCallbacks ++ [cb] }, []) := by
  unfold addDrainedCallback
  dsimp only
  rw [if_pos]
  have : 0 < g.drainedCallbacks.length := List.length_pos.mpr h
  simp only [List.length_append, List.length_cons, List.length_nil]
  omega

theorem addDrainedCallback_first (g : GridState) (cb : Nat)
    (h : g.drainedCallbacks = []) :
    addDrainedCallback g cb
      = ({ g with drainedCallbacks := [cb], drainsNeeded := g.npools }, List.range g.npools) := by
  unfold addDrainedCallback
  rw [h]
  simp

theorem applyOp_addCb_subsequent (g : GridState) (c : Nat) (h : g.drainedCallbacks ≠ []) :
    applyOp g (GOp.addCb c) = ({ g with drainedCallbacks := g.drainedCallbacks ++ [c] }, []) := by
  simp [applyOp, addDrainedCallback_subsequent g c h]

theorem applyOp_notify_pending (g : GridState) (hde : g.destroying = false)
    (h2 : 2 ≤ g.drainsNeeded) :
    applyOp g GOp.notify = ({ g with drainsNeeded := g.drainsNeeded - 1 }, []) := by
  simp [applyOp, onDrainReceived_pending g hde h2]

theorem applyOp_notify_fire (g : GridState) (hde : g.destroying = false)
    (h1 : g.drainsNeeded = 1) (hcb : g.drainedCallbacks ≠ []) :
    applyOp g GOp.notify = ({ g with drainsNeeded := 0 }, [g.drainedCallbacks]) := by
  simp [applyOp, onDrainReceived_fire g hde h1, hcb]

theorem applyOps_cons (g : GridState) (op : GOp) (rest : List GOp) :
    applyOps g (op :: rest)
      = ((applyOps (applyOp g op).1 rest).1,
         (applyOp g op).2 ++ (applyOps (applyOp g op).1 rest).2) := by
  rfl

theorem applyOps_pending (ops : List GOp) :
    ∀ g : GridState, g.drainedCallbacks ≠ [] → 0 < g.drainsNeeded → g.destroying = false →
      (∀ op ∈ ops, drainOnly op = true) → countNotify ops < g.drainsNeeded →
      (applyOps g ops).2 = [] := by
  induction ops with
  | nil => intro g _ _ _ _ _; rfl
  | cons op rest ih =>
    intro g hcb hpos hde hops hcnt
    have hop := hops op (List.mem_cons_self op rest)
    have hopsr : ∀ o ∈ rest, drainOnly o = true := fun o ho => hops o (List.mem_cons_of_mem _ ho)
    rw [countNotify_cons] at hcnt
    cases op with
    | createNext => simp [drainOnly] at hop
    | destroy => simp [drainOnly] at hop
    | addCb c =>
      simp only [GOp.isNotify, Bool.false_eq_true, if_false, Nat.zero_add] at hcnt
      rw [applyOps_cons, applyOp_addCb_subsequent g c hcb]
      simp only [List.nil_append]
      exact ih _ (by simp [hcb]) hpos hde hopsr hcnt
    | notify =>
      simp only [GOp.isNotify, if_true] at hcnt
      have h2 : 2 ≤ g.drainsNeeded := by omega
      rw [applyOps_cons, applyOp_notify_pending g hde h2]
      simp only [List.nil_append]
      exact ih _ hcb (by show 0 < g.drainsNeeded - 1; omega) hde hopsr
        (by show countNotify rest < g.drainsNeeded - 1; omega)

theorem applyOps_fire (ops : List GOp) :
    ∀ g : GridState, g.drainedCallbacks ≠ [] → 0 < g.drainsNeeded → g.destroying = false →
      (∀ op ∈ ops, drainOnly op = true) → countNotify ops = g.drainsNeeded →
      (applyOps g ops).2 = [g.drainedCallbacks ++ regBefore g.drainsNeeded ops] := by
  induction ops with
  | nil =>
    intro g _ hpos _ _ hcnt
    rw [countNotify_nil] at hcnt
    omega
  | cons op rest ih =>
    intro g hcb hpos hde hops hcnt
    have hop := hops op (List.mem_cons_self op rest)
    have hopsr : ∀ o ∈ rest, drainOnly o = true := fun o ho => hops o (List.mem_cons_of_mem _ ho)
    rw [countNotify_cons] at hcnt
    cases op with
    | createNext => simp [drainOnly] at hop
    | destroy => simp [drainOnly] at hop
    | addCb c =>
      simp only [GOp.isNotify, Bool.false_eq_true, if_false, Nat.zero_add] at hcnt
      rw [applyOps_cons, applyOp_addCb_subsequent g c hcb]
      simp only [List.nil_append]
      have hres := ih ({ g with drainedCallbacks := g.drainedCallbacks ++ [c] })
        (by simp [hcb]) hpos hde hopsr hcnt
      rw [hres]
      simp [regBefore, List.append_assoc]
    | notify =>
      simp only [GOp.isNotify, if_true] at hcnt
      by_cases h1 : g.drainsNeeded = 1
      · rw [applyOps_cons, applyOp_notify_fire g hde h1 hcb]
        have hrest0 : countNotify rest = 0 := by omega
        rw [applyOps_no_notify rest _ hrest0]
        rw [h1]
        simp [regBefore]
      · have h2 : 2 ≤ g.drainsNeeded := by omega
        rw [applyOps_cons, applyOp_notify_pending g hde h2]
        simp only [List.nil_append]
        have hres := ih ({ g with drainsNeeded := g.drainsNeeded - 1 })
          hcb (by show 0 < g.drainsNeeded - 1; omega) hde hopsr
          (by show countNotify rest = g.drainsNeeded - 1; omega)
        rw [hres]
        simp only [regBefore]
        rw [if_neg (by omega : ¬ g.drainsNeeded ≤ 1)]

theorem noEarlyNotify_prefix (pre suf : List GOp) (h : noEarlyNotify (pre ++ suf) = true) :
    noEarlyNotify pre = true := by
  induction pre with
  | nil => rfl
  | cons op rest ih =>
    cases op with
    | addCb c => rfl
    | notify => simp [noEarlyNotify] at h
    | createNext => exact ih (by simpa [noEarlyNotify] using h)
    | destroy => exact ih (by simpa [noEarlyNotify] using h)

theorem runActs_nil (g : GridState) (w : WrapperState) :
    runActs g w []
      = { caller := [], cancels := [], inList := w.inList, rank := w.pool_it,
          used := 0, done := false, grid := g } := rfl

theorem runActs_ready (g : GridState) (w : WrapperState) (e h i : Nat) (p : Option Nat)
    (rest : List PoolAct) :
    runActs g w (PoolAct.poolReady e h i p :: rest)
      = { caller := [CallerEvent.poolReady e h i p], cancels := [], inList := false,
          rank := w.pool_it, used := 1, done := true, grid := g } := rfl

theorem runActs_cancel (g : GridState) (w : WrapperState) (pol : Nat) (rest : List PoolAct) :
    runActs g w (PoolAct.cancel pol :: rest)
      = { caller := [], cancels := [(w.pool_it, pol)], inList := false,
          rank := w.pool_it, used := 1, done := true, grid := g } := rfl

theorem runActs_failure_retried (g : GridState) (w : WrapperState) (re : Nat) (d : String)
    (h : Nat) (rest : List PoolAct) (hq : (onPoolFailure g w re d h).retried = true) :
    runActs g w (PoolAct.poolFailure re d h :: rest)
      = { runActs (onPoolFailure g w re d h).grid (onPoolFailure g w re d h).wrapper rest with
          used := (runActs (onPoolFailure g w re d h).grid
                      (onPoolFailure g w re d h).wrapper rest).used + 1 } := by
  simp only [runActs, hq, if_true]

theorem runActs_failure_exhausted (g : GridState) (w : WrapperState) (re : Nat) (d : String)
    (h : Nat) (rest : List PoolAct) (hq : (onPoolFailure g w re d h).retried = false) :
    runActs g w (PoolAct.poolFailure re d h :: rest)
      = { caller := (onPoolFailure g w re d h).events, cancels := [],
          inList := (onPoolFailure g w re d h).wrapper.inList,
          rank := (onPoolFailure g w re d h).wrapper.pool_it, used := 1, done := true,
          grid := (onPoolFailure g w re d h).grid } := by
  simp only [runActs, hq, Bool.false_eq_true, if_false]

theorem onPoolFailure_eq_some (g : GridState) (w : WrapperState) (re : Nat) (d : String)
    (h : Nat) (r2 : Nat) (g2 : GridState) (hnp : nextPool g w.pool_it = (some r2, g2)) :
    onPoolFailure g w re d h
      = { grid := g2, wrapper := { w with pool_it := r2 }, events := [], retried := true } := by
  unfold onPoolFailure
  rw [hnp]

theorem onPoolFailure_eq_none (g : GridState) (w : WrapperState) (re : Nat) (d : String)
    (h : Nat) (g2 : GridState) (hnp : nextPool g w.pool_it = (none, g2)) :
    onPoolFailure g w re d h
      = { grid := g2, wrapper := w, events := [CallerEvent.poolFailure re d h],
          retried := false } := by
  unfold onPoolFailure
  rw [hnp]

theorem onPoolFailure_not_retried (g : GridState) (w : WrapperState) (re : Nat) (d : String)
    (h : Nat) (hq : (onPoolFailure g w re d h).retried = false) :
    (onPoolFailure g w re d h).events = [CallerEvent.poolFailure re d h] ∧
    (onPoolFailure g w re d h).wrapper = w := by
  rcases hnp : nextPool g w.pool_it with ⟨o, g2⟩
  cases o with
  | some r2 =>
    rw [onPoolFailure_eq_some g w re d h r2 g2 hnp] at hq
    simp at hq
  | none =>
    rw [onPoolFailure_eq_none g w re d h g2 hnp]
    simp

theorem runActs_done_used_pos (acts : List PoolAct) :
    ∀ (g : GridState) (w : WrapperState),
      (runActs g w acts).done = true → 1 ≤ (runActs g w acts).used := by
  induction acts with
  | nil => intro g w hd; simp [runActs_nil] at hd
  | cons a rest ih =>
    intro g w hd
    cases a with
    | poolReady e h i p => rw [runActs_ready]
    | cancel pol => rw [runActs_cancel]
    | poolFailure re d h =>
      by_cases hq : (onPoolFailure g w re d h).retried = true
      · rw [runActs_failure_retried g w re d h rest hq]
        simp
      · rw [Bool.not_eq_true] at hq
        rw [runActs_failure_exhausted g w re d h rest hq]

theorem lastFailureEvents_cons (a : PoolAct) (rest : List PoolAct) (u : Nat) (hu : 1 ≤ u) :
    lastFailureEvents (a :: rest) (u + 1) = lastFailureEvents rest u := by
  cases u with
  | zero => omega
  | succ k =>
    unfold lastFailureEvents
    simp

/-- Claim C3: for every sequence of pool attempts in which every available tier
fails, the caller's callbacks receive exactly one failure invocation — the
forwarding of the last consumed resolution (position `used - 1`), so its
reason, transport detail string and host description are those of the last
tier's failure — and zero success invocations. -/
theorem c3_exhaustion_forwards_last_failure_once (acts : List PoolAct) :
    ∀ (g : GridState) (w : WrapperState),
      (∀ a ∈ acts, PoolAct.isFailure a = true) →
      (runActs g w acts).done = true →
      (runActs g w acts).caller = lastFailureEvents acts (runActs g w acts).used ∧
      (runActs g w acts).caller.length = 1 := by
  induction acts with
  | nil =>
    intro g w _ hdone
    rw [runActs_nil] at hdone
    simp at hdone
  | cons a rest ih =>
    intro g w hf hdone
    have hfrest : ∀ x ∈ rest, PoolAct.isFailure x = true :=
      fun x hx => hf x (List.mem_cons_of_mem _ hx)
    cases a with
    | poolReady e h i p =>
      have hh := hf _ (List.mem_cons_self _ _)
      simp [PoolAct.isFailure] at hh
    | cancel pol =>
      have hh := hf _ (List.mem_cons_self _ _)
      simp [PoolAct.isFailure] at hh
    | poolFailure re d h =>
      by_cases hq : (onPoolFailure g w re d h).retried = true
      · rw [runActs_failure_retried g w re d h rest hq] at hdone ⊢
        dsimp only at hdone ⊢
        obtain ⟨hc, hlen⟩ := ih _ _ hfrest hdone
        have hupos := runActs_done_used_pos rest _ _ hdone
        refine ⟨?_, hlen⟩
        rw [lastFailureEvents_cons _ rest _ hupos]
        exact hc
      · rw [Bool.not_eq_true] at hq
        obtain ⟨hev, _⟩ := onPoolFailure_not_retried g w re d h hq
        rw [runActs_failure_exhausted g w re d h rest hq]
        dsimp only
        rw [hev]
        exact ⟨rfl, rfl⟩

/-- Claim C4: for every sequence of zero or more pool failures that leaves the
request still pending, followed by a success notification, the caller receives
exactly one success callback — forwarding the encoder, host description,
connection info and negotiated protocol — and zero failure callbacks; the
controller removes itself from the grid's collection (`inList = false`), and
no further callback to the caller ever follows the success (any further
resolutions `extra` leave the caller trace unchanged). -/
theorem c4_failures_then_success_single_ready (fails : List PoolAct) :
    ∀ (g : GridState) (w : WrapperState) (e h i : Nat) (p : Option Nat)
      (extra : List PoolAct),
      (∀ a ∈ fails, PoolAct.isFailure a = true) →
      (runActs g w fails).done = false →
      (runActs g w (fails ++ PoolAct.poolReady e h i p :: extra)).caller
          = [CallerEvent.poolReady e h i p] ∧
      (runActs g w (fails ++ PoolAct.poolReady e h i p :: extra)).inList = false := by
  induction fails with
  | nil =>
    intro g w e h i p extra _ _
    rw [List.nil_append, runActs_ready]
    exact ⟨rfl, rfl⟩
  | cons a rest ih =>
    intro g w e h i p extra hf hpend
    have hfrest : ∀ x ∈ rest, PoolAct.isFailure x = true :=
      fun x hx => hf x (List.mem_cons_of_mem _ hx)
    cases a with
    | poolReady e2 h2 i2 p2 =>
      have hh := hf _ (List.mem_cons_self _ _)
      simp [PoolAct.isFailure] at hh
    | cancel pol =>
      have hh := hf _ (List.mem_cons_self _ _)
      simp [PoolAct.isFailure] at hh
    | poolFailure re d h2 =>
      by_cases hq : (onPoolFailure g w re d h2).retried = true
      · rw [runActs_failure_retried g w re d h2 rest hq] at hpend
        dsimp only at hpend
        rw [List.cons_append,
          runActs_failure_retried g w re d h2 (rest ++ PoolAct.poolReady e h i p :: extra) hq]
        dsimp only
        exact ih _ _ e h i p extra hfrest hpend
      · rw [Bool.not_eq_true] at hq
        rw [runActs_failure_exhausted g w re d h2 rest hq] at hpend
        simp at hpend

/-- Claim C5: cancelling an in-flight request attempt (one whose failures so
far have all been retried, leaving it pending) forwards the supplied cancel
policy to the currently targeted pool's cancellation handle exactly once,
removes the controller from the grid's collection on that same call, and
yields zero caller callbacks — also under any further resolutions `extra`. -/
theorem c5_cancel_forwards_policy_no_callbacks (fails : List PoolAct) :
    ∀ (g : GridState) (w : WrapperState) (pol : Nat) (extra : List PoolAct),
      (∀ a ∈ fails, PoolAct.isFailure a = true) →
      (runActs g w fails).done = false →
      (runActs g w (fails ++ PoolAct.cancel pol :: extra)).caller = [] ∧
      (runActs g w (fails ++ PoolAct.cancel pol :: extra)).cancels
          = [((runActs g w fails).rank, pol)] ∧
      (runActs g w (fails ++ PoolAct.cancel pol :: extra)).inList = false := by
  induction fails with
  | nil =>
    intro g w pol extra _ _
    rw [List.nil_append, runActs_cancel, runActs_nil]
    exact ⟨rfl, rfl, rfl⟩
  | cons a rest ih =>
    intro g w pol extra hf hpend
    have hfrest : ∀ x ∈ rest, PoolAct.isFailure x = true :=
      fun x hx => hf x (List.mem_cons_of_mem _ hx)
    cases a with
    | poolReady e2 h2 i2 p2 =>
      have hh := hf _ (List.mem_cons_self _ _)
      simp [PoolAct.isFailure] at hh
    | cancel pol2 =>
      have hh := hf _ (List.mem_cons_self _ _)
      simp [PoolAct.isFailure] at hh
    | poolFailure re d h2 =>
      by_cases hq : (onPoolFailure g w re d h2).retried = true
      · rw [runActs_failure_retried g w re d h2 rest hq] at hpend
        dsimp only at hpend
        rw [List.cons_append,
          runActs_failure_retried g w re d h2 (rest ++ PoolAct.cancel pol :: extra) hq,
          runActs_failure_retried g w re d h2 rest hq]
        dsimp only
        exact ih _ _ pol extra hfrest hpend
      · rw [Bool.not_eq_true] at hq
        rw [runActs_failure_exhausted g w re d h2 rest hq] at hpend
        simp at hpend

theorem iterDrain_destroying (k : Nat) :
    ∀ g : GridState, g.destroying = true → iterDrain g k = (g, []) := by
  induction k with
  | zero => intro g _; rfl
  | succ n ih =>
    intro g h
    unfold iterDrain
    rw [onDrainReceived_destroying g h]
    dsimp only
    rw [ih g h]
    simp

/-- Claim C1 (evaluation at the failing input): on a fresh grid, a request
whose rank-0 attempt and rank-1 attempt both fail does forward the last
failure's reason, transport detail and host to the caller's failure callback —
but the controller is NOT removed from the grid's owned collection: the
exhaustion branch of `WrapperCallbacks::onPoolFailure` never calls
`deleteThis`, so `inList` stays `true` (compare `onPoolReady` and `cancel`,
which both remove the wrapper, and the dead local alias
`ConnectionPool::Callbacks& callbacks = inner_callbacks_` that only the
delete-before-forward pattern would need). -/
theorem c1_final_failure_forwards_but_wrapper_not_removed :
    (runActs { npools := 1, drainedCallbacks := [], drainsNeeded := 0, destroying := false }
        { pool_it := 0, inList := true }
        [PoolAct.poolFailure 1 "refused" 7, PoolAct.poolFailure 2 "reset" 7]).caller
      = [CallerEvent.poolFailure 2 "reset" 7] ∧
    (runActs { npools := 1, drainedCallbacks := [], drainsNeeded := 0, destroying := false }
        { pool_it := 0, inList := true }
        [PoolAct.poolFailure 1 "refused" 7, PoolAct.poolFailure 2 "reset" 7]).inList = true ∧
    (runActs { npools := 1, drainedCallbacks := [], drainsNeeded := 0, destroying := false }
        { pool_it := 0, inList := true }
        [PoolAct.poolFailure 1 "refused" 7, PoolAct.poolFailure 2 "reset" 7]).done = true := by
  decide

/-- Claim C2 (evaluation at the failing input): `ConnectivityGrid::newStream`
starts the first pool attempt from inside the `WrapperCallbacks` constructor,
before `LinkedList::moveIntoList` inserts the wrapper into
`wrapped_callbacks_`. If the pool resolves the attempt synchronously with
`onPoolReady`, `deleteThis` runs `removeFromList` on a wrapper that is not in
the list — the removal's not-inserted error branch is reached, contradicting
the claim that it is unreachable. An asynchronous resolution does not reach
it. -/
theorem c2_synchronous_ready_reaches_removal_error :
    (newStream initGrid [SyncBehavior.syncReady 4 7 9 (some 3)]).removeNotInserted = true ∧
    (newStream initGrid [SyncBehavior.syncReady 4 7 9 (some 3)]).caller
        = [CallerEvent.poolReady 4 7 9 (some 3)] ∧
    (newStream initGrid [SyncBehavior.async]).removeNotInserted = false := by
  decide

/-- Claim C6: from a fresh grid, under every sequence of operations the pool
sequence's length never exceeds 2; and whenever any drain callback has been
registered, `createNextPool` returns `none` and leaves the grid unchanged, and
`nextPool` likewise returns `none` whenever rank+1 does not already exist —
the frozen/maximum conditions are re-checked on every call, so this holds at
every state. -/
theorem c6_pool_bound_and_freeze :
    (∀ ops : List GOp, (applyOps initGrid ops).1.npools ≤ 2) ∧
    (∀ g : GridState, g.drainedCallbacks ≠ [] →
      (createNextPool g).1 = none ∧ (createNextPool g).2 = g) ∧
    (∀ (g : GridState) (r : Nat), g.drainedCallbacks ≠ [] → g.npools ≤ r + 1 →
      (nextPool g r).1 = none) := by
  refine ⟨?_, ?_, ?_⟩
  · intro ops
    exact applyOps_npools_le ops initGrid (by decide)
  · intro g h
    unfold createNextPool
    rw [if_pos (Or.inr h)]
    exact ⟨rfl, rfl⟩
  · intro g r h hr
    unfold nextPool
    rw [if_neg (by omega)]
    unfold createNextPool
    rw [if_pos (Or.inr h)]

theorem c6_witness :
    (applyOps initGrid [GOp.createNext, GOp.createNext, GOp.createNext]).1.npools ≤ 2 ∧
    (createNextPool ⟨1, [3], 0, false⟩).1 = none ∧
    (nextPool ⟨1, [3], 0, false⟩ 0).1 = none :=
  ⟨c6_pool_bound_and_freeze.1 _,
   (c6_pool_bound_and_freeze.2.1 _ (by decide)).1,
   c6_pool_bound_and_freeze.2.2 _ 0 (by decide) (by decide)⟩

/-- Claim C8: every call to `addDrainedCallback` after the first only appends
the supplied callback to the drain-callback list — the pending-drain counter,
the pool count and the destroying flag are untouched and no pool is
subscribed (empty subscription list); only on the first call is the counter
set to the number of existing pools and every existing pool subscribed. -/
theorem c8_subsequent_registration_appends_only (g : GridState) (cb : Nat) :
    (g.drainedCallbacks ≠ [] →
      addDrainedCallback g cb
        = ({ g with drainedCallbacks := g.drainedCallbacks ++ [cb] }, [])) ∧
    (g.drainedCallbacks = [] →
      addDrainedCallback g cb
        = ({ g with drainedCallbacks := [cb], drainsNeeded := g.npools },
           List.range g.npools)) :=
  ⟨fun h => addDrainedCallback_subsequent g cb h,
   fun h => addDrainedCallback_first g cb h⟩

theorem c8_witness :
    addDrainedCallback ⟨2, [9], 5, false⟩ 7 = (⟨2, [9, 7], 5, false⟩, []) ∧
    addDrainedCallback ⟨2, [], 0, false⟩ 7 = (⟨2, [7], 2, false⟩, [0, 1]) := by
  constructor
  · exact (c8_subsequent_registration_appends_only _ 7).1 (by decide)
  · exact (c8_subsequent_registration_appends_only _ 7).2 rfl

/-- Claim C9: destroying the grid sets the tearing-down flag before the pools
are released, and every drain notification delivered to `onDrainReceived`
while that flag is set is discarded — the pending counter is not decremented,
the callback list is untouched and no drain-complete callback ever fires
during destruction, for any number `k` of teardown notifications. -/
theorem c9_teardown_discards_drain_notifications :
    (∀ (g : GridState) (k : Nat),
      (destroyGrid g k).2 = [] ∧
      (destroyGrid g k).1.drainsNeeded = g.drainsNeeded ∧
      (destroyGrid g k).1.drainedCallbacks = g.drainedCallbacks) ∧
    (∀ g : GridState, g.destroying = true → onDrainReceived g = (g, [])) := by
  constructor
  · intro g k
    unfold destroyGrid
    dsimp only
    rw [iterDrain_destroying k _ rfl]
    exact ⟨rfl, rfl, rfl⟩
  · exact onDrainReceived_destroying

theorem c9_witness :
    (destroyGrid ⟨2, [4], 2, false⟩ 2).2 = [] ∧
    (destroyGrid ⟨2, [4], 2, false⟩ 2).1.drainsNeeded = 2 ∧
    onDrainReceived ⟨2, [4], 2, true⟩ = (⟨2, [4], 2, true⟩, []) :=
  ⟨(c9_teardown_discards_drain_notifications.1 _ 2).1,
   (c9_teardown_discards_drain_notifications.1 _ 2).2.1,
   c9_teardown_discards_drain_notifications.2 _ rfl⟩

/-- Claim C10: if the first `addDrainedCallback` call happens while zero pools
exist, the pending-drain counter is set to zero, no pool is subscribed (empty
subscription list), and — since the only source of `onDrainReceived` calls is
a subscribed pool's notification — in every continuation containing no drain
notification the registered callbacks never fire. -/
theorem c10_first_registration_no_pools_never_fires (g : GridState) (cb : Nat)
    (ops : List GOp) (hcb : g.drainedCallbacks = []) (hp : g.npools = 0)
    (hn : countNotify ops = 0) :
    (addDrainedCallback g cb).2 = [] ∧
    (addDrainedCallback g cb).1.drainsNeeded = 0 ∧
    (applyOps (addDrainedCallback g cb).1 ops).2 = [] := by
  have h1 : addDrainedCallback g cb
      = ({ g with drainedCallbacks := [cb], drainsNeeded := g.npools },
         List.range g.npools) := addDrainedCallback_first g cb hcb
  refine ⟨?_, ?_, ?_⟩
  · rw [h1, hp]
    simp
  · rw [h1]
    exact hp
  · rw [h1]
    exact applyOps_no_notify ops _ hn

theorem c10_witness :
    (addDrainedCallback ⟨0, [], 0, false⟩ 5).2 = [] ∧
    (addDrainedCallback ⟨0, [], 0, false⟩ 5).1.drainsNeeded = 0 ∧
    (applyOps (addDrainedCallback ⟨0, [], 0, false⟩ 5).1
      [GOp.addCb 6, GOp.createNext, GOp.destroy]).2 = [] :=
  c10_first_registration_no_pools_never_fires _ 5 _ rfl rfl rfl

/-- Claim C7 (counterexample to the claim as stated): one pool; callback 0 is
registered, the pool's single drain notification fires the group — which
contains only callback 0 — and callback 1 is registered afterwards. Callback 1
is then a registered drain-complete callback that never appears in any fired
group: the coordinator never fires again (its one subscription is consumed),
so "the registered drain-complete callbacks are invoked exactly once as a
group" fails for callbacks registered after the group has fired. -/
theorem c7_counterexample_late_registration_never_fires :
    (applyOps ⟨1, [], 0, false⟩ [GOp.addCb 0, GOp.notify, GOp.addCb 1]).2 = [[0]] ∧
    (applyOps ⟨1, [], 0, false⟩ [GOp.addCb 0, GOp.notify, GOp.addCb 1]).1.drainedCallbacks
      = [0, 1] ∧
    (1 : Nat) ∉ (applyOps ⟨1, [], 0, false⟩ [GOp.addCb 0, GOp.notify, GOp.addCb 1]).2.flatten := by
  decide

/-- Claim C7 (amended): in every execution in which at least one pool existed
at first registration, the operations are registrations and pool drain
notifications — each subscribed pool notifies exactly once, so the number of
notifications equals the pool count at first registration — and no
notification precedes the first registration, the drain-complete callbacks
registered before the final notification are invoked exactly once as a single
group, in registration order, at the final notification; every strictly
earlier prefix (fewer notifications than pools) fires nothing, and the
coordinator never fires a second time. -/
theorem c7_amended_single_group_firing (g : GridState) (ops : List GOp)
    (hcb : g.drainedCallbacks = []) (hde : g.destroying = false) (hp0 : 0 < g.npools)
    (hops : ∀ op ∈ ops, drainOnly op = true) (hcnt : countNotify ops = g.npools)
    (hne : noEarlyNotify ops = true) :
    (applyOps g ops).2 = [regBefore g.npools ops] ∧
    ∀ pre suf, ops = pre ++ suf → countNotify pre < g.npools →
      (applyOps g pre).2 = [] := by
  constructor
  · cases ops with
    | nil =>
      rw [countNotify_nil] at hcnt
      omega
    | cons op rest =>
      cases op with
      | notify => simp [noEarlyNotify] at hne
      | createNext =>
        have hh := hops _ (List.mem_cons_self _ _)
        simp [drainOnly] at hh
      | destroy =>
        have hh := hops _ (List.mem_cons_self _ _)
        simp [drainOnly] at hh
      | addCb c =>
        rw [countNotify_cons] at hcnt
        simp only [GOp.isNotify, Bool.false_eq_true, if_false, Nat.zero_add] at hcnt
        rw [applyOps_cons]
        have hstep : applyOp g (GOp.addCb c)
            = ({ g with drainedCallbacks := [c], drainsNeeded := g.npools }, []) := by
          simp [applyOp, addDrainedCallback_first g c hcb]
        rw [hstep]
        simp only [List.nil_append]
        have hres := applyOps_fire rest
          ({ g with drainedCallbacks := [c], drainsNeeded := g.npools })
          (by simp) (by show 0 < g.npools; exact hp0) hde
          (fun o ho => hops o (List.mem_cons_of_mem _ ho))
          (by show countNotify rest = g.npools; exact hcnt)
        rw [hres]
        simp [regBefore]
  · intro pre suf heq hlt
    subst heq
    cases pre with
    | nil => rfl
    | cons op2 pre2 =>
      cases op2 with
      | notify => simp [noEarlyNotify] at hne
      | createNext =>
        have hh := hops _ (List.mem_cons_self _ _)
        simp [drainOnly] at hh
      | destroy =>
        have hh := hops _ (List.mem_cons_self _ _)
        simp [drainOnly] at hh
      | addCb c =>
        rw [applyOps_cons]
        have hstep : applyOp g (GOp.addCb c)
            = ({ g with drainedCallbacks := [c], drainsNeeded := g.npools }, []) := by
          simp [applyOp, addDrainedCallback_first g c hcb]
        rw [hstep]
        simp only [List.nil_append]
        rw [countNotify_cons] at hlt
        simp only [GOp.isNotify, Bool.false_eq_true, if_false, Nat.zero_add] at hlt
        apply applyOps_pending pre2
        · simp
        · show 0 < g.npools
          exact hp0
        · exact hde
        · intro o ho
          exact hops o (List.mem_append_left _ (List.mem_cons_of_mem _ ho))
        · show countNotify pre2 < g.npools
          exact hlt

theorem c7_amended_witness :
    (applyOps ⟨2, [], 0, false⟩
        [GOp.addCb 5, GOp.notify, GOp.addCb 6, GOp.notify, GOp.addCb 7]).2
      = [regBefore 2 [GOp.addCb 5, GOp.notify, GOp.addCb 6, GOp.notify, GOp.addCb 7]] :=
  (c7_amended_single_group_firing ⟨2, [], 0, false⟩
    [GOp.addCb 5, GOp.notify, GOp.addCb 6, GOp.notify, GOp.addCb 7]
    rfl rfl (by decide) (by decide) rfl rfl).1

theorem c3_witness :
    (runActs ⟨1, [], 0, false⟩ ⟨0, true⟩
        [PoolAct.poolFailure 1 "refused" 11, PoolAct.poolFailure 2 "reset" 11]).caller
      = lastFailureEvents
          [PoolAct.poolFailure 1 "refused" 11, PoolAct.poolFailure 2 "reset" 11]
          (runActs ⟨1, [], 0, false⟩ ⟨0, true⟩
            [PoolAct.poolFailure 1 "refused" 11, PoolAct.poolFailure 2 "reset" 11]).used ∧
    (runActs ⟨1, [], 0, false⟩ ⟨0, true⟩
        [PoolAct.poolFailure 1 "refused" 11, PoolAct.poolFailure 2 "reset" 11]).caller.length
      = 1 :=
  c3_exhaustion_forwards_last_failure_once
    [PoolAct.poolFailure 1 "refused" 11, PoolAct.poolFailure 2 "reset" 11]
    ⟨1, [], 0, false⟩ ⟨0, true⟩ (by decide) (by decide)

theorem c4_witness :
    (runActs ⟨1, [], 0, false⟩ ⟨0, true⟩
        ([PoolAct.poolFailure 1 "refused" 3]
          ++ PoolAct.poolReady 4 3 9 (some 3) :: [PoolAct.poolFailure 8 "late" 3])).caller
      = [CallerEvent.poolReady 4 3 9 (some 3)] ∧
    (runActs ⟨1, [], 0, false⟩ ⟨0, true⟩
        ([PoolAct.poolFailure 1 "refused" 3]
          ++ PoolAct.poolReady 4 3 9 (some 3) :: [PoolAct.poolFailure 8 "late" 3])).inList
      = false :=
  c4_failures_then_success_single_ready [PoolAct.poolFailure 1 "refused" 3]
    ⟨1, [], 0, false⟩ ⟨0, true⟩ 4 3 9 (some 3) [PoolAct.poolFailure 8 "late" 3]
    (by decide) (by decide)

theorem c5_witness :
    (runActs ⟨1, [], 0, false⟩ ⟨0, true⟩
        ([PoolAct.poolFailure 1 "refused" 3] ++ PoolAct.cancel 1 :: [PoolAct.cancel 0])).caller
      = [] ∧
    (runActs ⟨1, [], 0, false⟩ ⟨0, true⟩
        ([PoolAct.poolFailure 1 "refused" 3] ++ PoolAct.cancel 1 :: [PoolAct.cancel 0])).cancels
      = [((runActs ⟨1, [], 0, false⟩ ⟨0, true⟩ [PoolAct.poolFailure 1 "refused" 3]).rank, 1)] ∧
    (runActs ⟨1, [], 0, false⟩ ⟨0, true⟩
        ([PoolAct.poolFailure 1 "refused" 3] ++ PoolAct.cancel 1 :: [PoolAct.cancel 0])).inList
      = false :=
  c5_cancel_forwards_policy_no_callbacks [PoolAct.poolFailure 1 "refused" 3]
    ⟨1, [], 0, false⟩ ⟨0, true⟩ 1 [PoolAct.cancel 0] (by decide) (by decide)
